import Mathlib

/-!
Verification of the editable-install redirecting finder
(`_editable_redirect.py`): the location-table builder, the resolver
(`find_spec`), and the rebuild trigger, embedded as executable Lean
functions over association lists and explicit environments.
-/

/-- Python-style split of a character list at every occurrence of `c`
(matches `str.split` with a one-character separator: the empty list
splits to `[[]]`). -/
def splitChar (c : Char) : List Char → List (List Char)
  | [] => [[]]
  | x :: xs =>
    if x = c then [] :: splitChar c xs
    else
      match splitChar c xs with
      | [] => [[x]]
      | y :: ys => (x :: y) :: ys

/-- Join character-list segments with the separator `c`
(matches `sep.join`). -/
def joinWithChar (c : Char) : List (List Char) → List Char
  | [] => []
  | [x] => x
  | x :: y :: ys => x ++ c :: joinWithChar c (y :: ys)

/-- Whether `pat` is a prefix of the character list. -/
def charsStartWith : List Char → List Char → Bool
  | [], _ => true
  | _ :: _, [] => false
  | a :: as, b :: bs => a == b && charsStartWith as bs

/-- Whether `pat` occurs as a contiguous run inside the character list. -/
def charsContain (pat : List Char) : List Char → Bool
  | [] => charsStartWith pat []
  | b :: bs => charsStartWith pat (b :: bs) || charsContain pat bs

/-- Python's `needle in hay` substring test on strings. -/
def pyInStr (needle hay : String) : Bool :=
  charsContain needle.toList hay.toList

/-- Python's `str.split` on a one-character separator, returning strings. -/
def splitStr (c : Char) (s : String) : List String :=
  (splitChar c s.toList).map String.mk

/-- `os.path.dirname` for POSIX paths: the text up to the last slash,
with trailing slashes stripped unless the head is all slashes. -/
def dirname (p : String) : String :=
  let hd := p.toList.reverse.dropWhile (fun c => c != '/')
  if hd.isEmpty then ("")
  else if hd.all (fun c => c == '/') then String.mk hd
  else String.mk ((hd.dropWhile (fun c => c == '/')).reverse)

/-- `os.path.isabs` for POSIX paths: starts with a slash. -/
def isAbsPath (p : String) : Bool :=
  match p.toList with
  | [] => false
  | c :: _ => c == '/'

/-- Whether the path ends with a slash. -/
def endsWithSlash (p : String) : Bool :=
  match p.toList.reverse with
  | [] => false
  | c :: _ => c == '/'

/-- `os.path.join` for POSIX paths restricted to two arguments. -/
def joinPath (a b : String) : String :=
  if isAbsPath b then b
  else if (a == ("")) || endsWithSlash a then a ++ b
  else a ++ ("/") ++ b

/-- `MARKER = "SKBUILD_EDITABLE_SKIP"`: recursion-marker variable name. -/
def MARKER : String := "SKBUILD_EDITABLE_SKIP"

/-- `VERBOSE = "SKBUILD_EDITABLE_VERBOSE"`: verbosity-override variable name. -/
def VERBOSE : String := "SKBUILD_EDITABLE_VERBOSE"

/-- The package-initializer file name tested for with Python's `in`. -/
def initPyStr : String := "__init__.py"

/-- Strip the last dotted segment of a module name:
Python's `".".join(module.split(".")[:-1])`. -/
def stripLastSeg (m : String) : String :=
  String.mk (joinWithChar '.' ((splitChar '.' m.toList).dropLast))

/-- The container key of a table entry `(module, file)`: the module itself
when its file names a package initializer, else the module minus its last
dotted segment (lines 75-79 of the source). -/
def entryKey (e : String × String) : String :=
  if pyInStr initPyStr e.2 then e.1 else stripLastSeg e.1

/-- The directory recorded for an entry's file: `dirname(file)`, joined
against the root directory `d` when relative (lines 87-94). -/
def resolveDir (d : String) (file : String) : String :=
  let pp := dirname file
  if isAbsPath pp then pp else joinPath d pp

/-- The `ImportError` raised during scope construction, carrying the
offending file and module. -/
structure PathError where
  module : String
  file : String
deriving DecidableEq

/-- The message of the construction error:
`f"Unexpected path to source file: {file} [{module}]"`. -/
def PathError.message (e : PathError) : String :=
  ("Unexpected path to source file: ") ++ e.file ++ (" [") ++ e.module ++ ("]")

/-- The outcome of scope construction: the `submodule_search_locations`
mapping (with its key set) and the `pkgs` list. -/
structure ScopeOut where
  ssl : String → Finset String
  ssl_keys : List String
  pkgs : List String

/-- One pass of the `__init__` scope-construction loop over the remaining
entries, carrying the accumulated mapping, key list and package list
(lines 70-96 of the source). -/
def buildScopesGo (d : String) : List (String × String) →
    (String → Finset String) → List String → List String →
    Except PathError ScopeOut
  | [], scope, keys, pkgs => .ok ⟨scope, keys, pkgs⟩
  | (module, file) :: rest, scope, keys, pkgs =>
    let pkgs1 := if pyInStr initPyStr file then pkgs ++ [module] else pkgs
    if entryKey (module, file) = ("") then
      buildScopesGo d rest scope keys pkgs1
    else
      let keys1 := if entryKey (module, file) ∈ keys then keys
        else keys ++ [entryKey (module, file)]
      if dirname file = ("") then .error ⟨module, file⟩
      else
        buildScopesGo d rest
          (fun k => if k = entryKey (module, file)
            then insert (resolveDir d file) (scope k) else scope k)
          keys1 pkgs1

/-- Scope construction over the concatenation of the source-tree and
build-output tables, as iterated by `__init__`. -/
def buildScopes (d : String) (entries : List (String × String)) :
    Except PathError ScopeOut :=
  buildScopesGo d entries (fun _ => ∅) [] []

/-- The redirecting finder's state, as set up by `__init__`. -/
structure Finder where
  known_source_files : List (String × String)
  known_wheel_files : List (String × String)
  path : Option String
  rebuild_flag : Bool
  verbose : Bool
  build_options : List String
  install_options : List String
  dir : String
  ssl : String → Finset String
  ssl_keys : List String
  pkgs : List String

/-- `__init__`: store the configuration and build the search scopes,
propagating the construction error. -/
def mkFinder (known_source_files known_wheel_files : List (String × String))
    (path : Option String) (rebuild_flag verbose : Bool)
    (build_options install_options : List String) (dir : String) :
    Except PathError Finder :=
  match buildScopes dir (known_source_files ++ known_wheel_files) with
  | .error e => .error e
  | .ok out => .ok ⟨known_source_files, known_wheel_files, path, rebuild_flag,
      verbose, build_options, install_options, dir, out.ssl, out.ssl_keys, out.pkgs⟩

/-- A module spec as produced by `find_spec`: name, origin, optional
submodule search locations, and the loader's bound file. -/
structure ModuleSpec where
  name : String
  origin : String
  search_locations : Option (Finset String)
  loader_path : String

/-- The `submodule_search_locations` argument chosen by `find_spec`:
the stored set when the name is a key, else `None` (lines 104-109). -/
def sslOf (f : Finder) (fullname : String) : Option (Finset String) :=
  if fullname ∈ f.ssl_keys then some (f.ssl fullname) else none

/-- `find_spec` without the rebuild side effect: build-output table first,
then source table, else decline with `none` (lines 98-128). -/
def findSpec (f : Finder) (fullname : String) : Option ModuleSpec :=
  match List.lookup fullname f.known_wheel_files with
  | some redir =>
    some ⟨fullname, joinPath f.dir redir, sslOf f fullname, joinPath f.dir redir⟩
  | none =>
    match List.lookup fullname f.known_source_files with
    | some redir => some ⟨fullname, redir, sslOf f fullname, redir⟩
    | none => none

/-- Lookup in an environment modelled as an association list, with a
default (Python's `env.get(k, default)`). -/
def envGet (env : List (String × String)) (k dflt : String) : String :=
  (List.lookup k env).getD dflt

/-- Setting a key in the environment (Python's `env[k] = v`). -/
def envSet (env : List (String × String)) (k v : String) :
    List (String × String) :=
  (k, v) :: env

/-- An external command invocation: argument vector, working directory,
whether stdout is streamed to the error stream (verbose) or captured,
and the environment passed down. -/
structure Cmd where
  args : List String
  cwd : String
  streamed : Bool
  env : List (String × String)
deriving DecidableEq

/-- The outcome of an external command: exit code, and the captured
stdout (`none` when it was streamed instead of captured). -/
structure CmdResult where
  returncode : Int
  stdout : Option String
deriving DecidableEq

/-- The `CalledProcessError` raised by `check_returncode`: exit code,
command, and captured output. -/
structure BuildFailure where
  returncode : Int
  cmd : List String
  output : Option String
deriving DecidableEq

/-- Everything observable about one `rebuild()` call: the commands
invoked in order, the lines printed to stdout and to the error stream,
and the result (success or a raised `BuildFailure`). -/
structure RebuildOut where
  invoked : List Cmd
  stdoutMsgs : List String
  stderrMsgs : List String
  result : Except BuildFailure Unit

/-- The verbosity computation of lines 142-144:
`verbose = flag or bool(env.get(VERBOSE, ""))`, then forced off when the
environment value is exactly `"0"`. -/
def resolveVerbose (flag : Bool) (ev : String) : Bool :=
  let v := flag || !(ev == (""))
  if ev = ("0") then false else v

/-- The child environment of a rebuild: the recursion marker extended
with the build directory (line 140). -/
def rebuildEnv (osEnv : List (String × String)) (p : String) :
    List (String × String) :=
  envSet osEnv MARKER ((envGet osEnv MARKER ("")) ++ (":") ++ p)

/-- The effective verbosity of a rebuild that proceeds to run commands. -/
def effVerbose (f : Finder) (osEnv : List (String × String)) (p : String) :
    Bool :=
  resolveVerbose f.verbose (envGet (rebuildEnv osEnv p) VERBOSE (""))

/-- The fixed argument prefix of the build step. -/
def cmakeBuildArgs : List String := ["cmake", "--build", "."]

/-- The fixed argument prefix of the install step, targeting the package
root directory. -/
def cmakeInstallArgs (moduleDir : String) : List String :=
  ["cmake", "--install", ".", "--prefix", moduleDir]

/-- The build-step command of lines 148-155. -/
def buildStepCmd (f : Finder) (osEnv : List (String × String)) (p : String) :
    Cmd :=
  ⟨cmakeBuildArgs ++ f.build_options, p, effVerbose f osEnv p, rebuildEnv osEnv p⟩

/-- The install-step command of lines 163-170. -/
def installStepCmd (f : Finder) (osEnv : List (String × String))
    (p moduleDir : String) : Cmd :=
  ⟨cmakeInstallArgs moduleDir ++ f.install_options, p, effVerbose f osEnv p,
    rebuildEnv osEnv p⟩

/-- Python's rendering of an optional string inside an f-string
(`None` for the absent value). -/
def pyShow : Option String → String
  | none => "None"
  | some s => s

/-- The verbose banner printed to stdout (line 146). -/
def runningMsg (p : String) : String :=
  ("Running cmake --build & --install in ") ++ p

/-- The error line printed to the error stream (lines 157-160). -/
def errEcho (o : Option String) : String :=
  ("ERROR: ") ++ pyShow o

/-- `rebuild()` (lines 130-176), with the external world abstracted as a
function `run` from a command to its result, and the module-level `DIR`
constant passed as `moduleDir`. -/
def rebuild (f : Finder) (osEnv : List (String × String)) (moduleDir : String)
    (run : Cmd → CmdResult) : RebuildOut :=
  match f.path with
  | none => ⟨[], [], [], .ok ()⟩
  | some p =>
    if p = ("") then ⟨[], [], [], .ok ()⟩
    else if p ∈ splitStr ':' (envGet osEnv MARKER ("")) then ⟨[], [], [], .ok ()⟩
    else
      let v := effVerbose f osEnv p
      let outMsgs : List String := if v then [runningMsg p] else []
      let c1 := buildStepCmd f osEnv p
      let r1 := run c1
      let e1 : List String :=
        if r1.returncode != 0 && v then [errEcho r1.stdout] else []
      if r1.returncode != 0 then
        ⟨[c1], outMsgs, e1, .error ⟨r1.returncode, c1.args, r1.stdout⟩⟩
      else
        let c2 := installStepCmd f osEnv p moduleDir
        let r2 := run c2
        let e2 : List String :=
          if r2.returncode != 0 && v then [errEcho r2.stdout] else []
        if r2.returncode != 0 then
          ⟨[c1, c2], outMsgs, e1 ++ e2, .error ⟨r2.returncode, c2.args, r2.stdout⟩⟩
        else ⟨[c1, c2], outMsgs, e1 ++ e2, .ok ()⟩

/-- `find_spec` with the rebuild side effect: in the build-output branch,
when the rebuild flag is set, `rebuild()` runs first and its failure
propagates (lines 110-119). -/
def findSpecFull (f : Finder) (osEnv : List (String × String))
    (moduleDir : String) (run : Cmd → CmdResult) (fullname : String) :
    Except BuildFailure (Option ModuleSpec) :=
  match List.lookup fullname f.known_wheel_files with
  | some _ =>
    if f.rebuild_flag then
      match (rebuild f osEnv moduleDir run).result with
      | .error e => .error e
      | .ok _ => .ok (findSpec f fullname)
    else .ok (findSpec f fullname)
  | none => .ok (findSpec f fullname)

/-- A malformed entry: a non-root container key whose file has no parent
directory (the fatal case of lines 88-91). -/
def badEntry (e : String × String) : Prop :=
  entryKey e ≠ ("") ∧ dirname e.2 = ("")

instance : DecidablePred badEntry := fun e =>
  inferInstanceAs (Decidable (entryKey e ≠ ("") ∧ dirname e.2 = ("")))

/-- The directory an entry contributes to container `c`, if any. -/
def contrib (d c : String) (e : String × String) : Option String :=
  if entryKey e = c then some (resolveDir d e.2) else none

/-- The directories contributed to container `c` by a table. -/
def childDirs (d c : String) (tbl : List (String × String)) : List String :=
  tbl.filterMap (contrib d c)

/-- The modules a table marks as packages. -/
def initPkgs (tbl : List (String × String)) : List String :=
  tbl.filterMap (fun e => if pyInStr initPyStr e.2 then some e.1 else none)

/-! ## Helper lemmas about the scope construction -/

lemma contrib_eq_none {d c : String} {e : String × String}
    (h : entryKey e ≠ c) : contrib d c e = none := by
  simp [contrib, h]

lemma contrib_eq_some {d c : String} {e : String × String}
    (h : entryKey e = c) : contrib d c e = some (resolveDir d e.2) := by
  simp [contrib, h]

lemma go_ok_ssl (d : String) (entries : List (String × String)) :
    ∀ (scope : String → Finset String) (keys pkgs : List String)
      (out : ScopeOut),
      buildScopesGo d entries scope keys pkgs = .ok out →
      ∀ c, c ≠ ("") → out.ssl c = scope c ∪ (childDirs d c entries).toFinset := by
  induction entries with
  | nil =>
    intro scope keys pkgs out h c hc
    simp only [buildScopesGo, Except.ok.injEq] at h
    subst h
    simp [childDirs]
  | cons e rest ih =>
    obtain ⟨m, f⟩ := e
    intro scope keys pkgs out h c hc
    simp only [buildScopesGo] at h
    by_cases hk : entryKey (m, f) = ("")
    · rw [if_pos hk] at h
      have := ih _ _ _ _ h c hc
      simp only [childDirs] at this ⊢
      rw [this, List.filterMap_cons,
        contrib_eq_none (by rw [hk]; exact Ne.symm hc)]
    · rw [if_neg hk] at h
      by_cases hd : dirname f = ("")
      · rw [if_pos hd] at h; simp at h
      · rw [if_neg hd] at h
        have hih := ih _ _ _ _ h c hc
        by_cases hcK : c = entryKey (m, f)
        · rw [if_pos hcK] at hih
          simp only [childDirs] at hih ⊢
          rw [hih, List.filterMap_cons, contrib_eq_some hcK.symm,
            List.toFinset_cons, Finset.insert_union, Finset.union_insert]
        · rw [if_neg hcK] at hih
          simp only [childDirs] at hih ⊢
          rw [hih, List.filterMap_cons,
            contrib_eq_none (fun hx => hcK hx.symm)]

lemma go_ok_ssl_root (d : String) (entries : List (String × String)) :
    ∀ (scope : String → Finset String) (keys pkgs : List String)
      (out : ScopeOut),
      buildScopesGo d entries scope keys pkgs = .ok out →
      out.ssl ("") = scope ("") := by
  induction entries with
  | nil =>
    intro scope keys pkgs out h
    simp only [buildScopesGo, Except.ok.injEq] at h
    subst h; rfl
  | cons e rest ih =>
    obtain ⟨m, f⟩ := e
    intro scope keys pkgs out h
    simp only [buildScopesGo] at h
    by_cases hk : entryKey (m, f) = ("")
    · rw [if_pos hk] at h; exact ih _ _ _ _ h
    · rw [if_neg hk] at h
      by_cases hd : dirname f = ("")
      · rw [if_pos hd] at h; simp at h
      · rw [if_neg hd] at h
        have := ih _ _ _ _ h
        rw [this, if_neg (fun hx => hk hx.symm)]

lemma go_ok_pkgs (d : String) (entries : List (String × String)) :
    ∀ (scope : String → Finset String) (keys pkgs : List String)
      (out : ScopeOut),
      buildScopesGo d entries scope keys pkgs = .ok out →
      out.pkgs = pkgs ++ initPkgs entries := by
  induction entries with
  | nil =>
    intro scope keys pkgs out h
    simp only [buildScopesGo, Except.ok.injEq] at h
    subst h; simp [initPkgs]
  | cons e rest ih =>
    obtain ⟨m, f⟩ := e
    intro scope keys pkgs out h
    simp only [buildScopesGo] at h
    by_cases hi : pyInStr initPyStr f = true
    · rw [if_pos hi] at h
      by_cases hk : entryKey (m, f) = ("")
      · rw [if_pos hk] at h
        rw [ih _ _ _ _ h]
        simp [initPkgs, List.filterMap_cons, hi]
      · rw [if_neg hk] at h
        by_cases hd : dirname f = ("")
        · rw [if_pos hd] at h; simp at h
        · rw [if_neg hd] at h
          rw [ih _ _ _ _ h]
          simp [initPkgs, List.filterMap_cons, hi]
    · rw [if_neg hi] at h
      by_cases hk : entryKey (m, f) = ("")
      · rw [if_pos hk] at h
        rw [ih _ _ _ _ h]
        simp [initPkgs, List.filterMap_cons, hi]
      · rw [if_neg hk] at h
        by_cases hd : dirname f = ("")
        · rw [if_pos hd] at h; simp at h
        · rw [if_neg hd] at h
          rw [ih _ _ _ _ h]
          simp [initPkgs, List.filterMap_cons, hi]

lemma go_ok_good (d : String) (entries : List (String × String)) :
    ∀ (scope : String → Finset String) (keys pkgs : List String)
      (out : ScopeOut),
      buildScopesGo d entries scope keys pkgs = .ok out →
      ∀ e ∈ entries, ¬ badEntry e := by
  induction entries with
  | nil => intro scope keys pkgs out _ e he; simp at he
  | cons e rest ih =>
    obtain ⟨m, f⟩ := e
    intro scope keys pkgs out h e' he'
    simp only [buildScopesGo] at h
    rcases List.mem_cons.mp he' with rfl | hmem
    · by_cases hk : entryKey (m, f) = ("")
      · exact fun hb => hb.1 hk
      · by_cases hd : dirname f = ("")
        · rw [if_neg hk, if_pos hd] at h; simp at h
        · exact fun hb => hd hb.2
    · by_cases hk : entryKey (m, f) = ("")
      · rw [if_pos hk] at h; exact ih _ _ _ _ h e' hmem
      · by_cases hd : dirname f = ("")
        · rw [if_neg hk, if_pos hd] at h; simp at h
        · rw [if_neg hk, if_neg hd] at h; exact ih _ _ _ _ h e' hmem

lemma go_ok_keys (d : String) (entries : List (String × String)) :
    ∀ (scope : String → Finset String) (keys pkgs : List String)
      (out : ScopeOut),
      buildScopesGo d entries scope keys pkgs = .ok out →
      ∀ k, k ∈ out.ssl_keys ↔
        (k ∈ keys ∨ (k ≠ ("") ∧ ∃ e ∈ entries, entryKey e = k)) := by
  induction entries with
  | nil =>
    intro scope keys pkgs out h k
    simp only [buildScopesGo, Except.ok.injEq] at h
    subst h; simp
  | cons e rest ih =>
    obtain ⟨m, f⟩ := e
    intro scope keys pkgs out h k
    simp only [buildScopesGo] at h
    by_cases hk : entryKey (m, f) = ("")
    · rw [if_pos hk] at h
      rw [ih _ _ _ _ h k]
      constructor
      · rintro (h1 | ⟨hne, e, he, hP⟩)
        · exact Or.inl h1
        · exact Or.inr ⟨hne, e, List.mem_cons_of_mem _ he, hP⟩
      · rintro (h1 | ⟨hne, e, he, hP⟩)
        · exact Or.inl h1
        · rcases List.mem_cons.mp he with rfl | he'
          · rw [hP] at hk; exact absurd hk hne
          · exact Or.inr ⟨hne, e, he', hP⟩
    · rw [if_neg hk] at h
      by_cases hd : dirname f = ("")
      · rw [if_pos hd] at h; simp at h
      · rw [if_neg hd] at h
        rw [ih _ _ _ _ h k]
        have hmem : (k ∈ (if entryKey (m, f) ∈ keys then keys
            else keys ++ [entryKey (m, f)])) ↔
            (k ∈ keys ∨ k = entryKey (m, f)) := by
          by_cases hin : entryKey (m, f) ∈ keys
          · rw [if_pos hin]
            constructor
            · exact Or.inl
            · rintro (h1 | rfl)
              · exact h1
              · exact hin
          · rw [if_neg hin]
            simp [List.mem_append]
        rw [hmem]
        constructor
        · rintro ((h1 | rfl) | ⟨hne, e, he, hP⟩)
          · exact Or.inl h1
          · exact Or.inr ⟨hk, (m, f), List.mem_cons_self _ _, rfl⟩
          · exact Or.inr ⟨hne, e, List.mem_cons_of_mem _ he, hP⟩
        · rintro (h1 | ⟨hne, e, he, hP⟩)
          · exact Or.inl (Or.inl h1)
          · rcases List.mem_cons.mp he with rfl | he'
            · exact Or.inl (Or.inr hP.symm)
            · exact Or.inr ⟨hne, e, he', hP⟩

lemma go_error_first (d : String) (pre : List (String × String)) :
    (∀ e ∈ pre, ¬ badEntry e) →
    ∀ (m f : String) (post : List (String × String))
      (scope : String → Finset String) (keys pkgs : List String),
      badEntry (m, f) →
      buildScopesGo d (pre ++ (m, f) :: post) scope keys pkgs
        = .error ⟨m, f⟩ := by
  induction pre with
  | nil =>
    intro _ m f post scope keys pkgs hbad
    obtain ⟨h1, h2⟩ := hbad
    simp only [List.nil_append, buildScopesGo]
    rw [if_neg h1, if_pos h2]
  | cons e pre ih =>
    intro hpre m f post scope keys pkgs hbad
    obtain ⟨em, ef⟩ := e
    have hgood : ¬ badEntry (em, ef) := hpre _ (List.mem_cons_self _ _)
    simp only [List.cons_append, buildScopesGo]
    by_cases hk : entryKey (em, ef) = ("")
    · rw [if_pos hk]
      exact ih (fun x hx => hpre x (List.mem_cons_of_mem _ hx))
        m f post _ _ _ hbad
    · have hd : dirname ef ≠ ("") := fun hd => hgood ⟨hk, hd⟩
      rw [if_neg hk, if_neg hd]
      exact ih (fun x hx => hpre x (List.mem_cons_of_mem _ hx))
        m f post _ _ _ hbad

/-! ## Helper lemmas about strings -/

lemma string_toList_append (x y : String) :
    (x ++ y).toList = x.toList ++ y.toList := rfl

lemma string_append_ne_empty_right (a b : String) (hb : b ≠ ("")) :
    a ++ b ≠ ("") := by
  intro h
  apply hb
  have hd : (a ++ b).data = a.data ++ b.data := rfl
  rw [h] at hd
  have : b.data = [] := (List.append_eq_nil.mp hd.symm).2
  cases b; simp_all

lemma charsStartWith_self_append (n y : List Char) :
    charsStartWith n (n ++ y) = true := by
  induction n with
  | nil => simp [charsStartWith]
  | cons a as ih => simp [charsStartWith, ih]

lemma charsContain_of_startsWith (n h : List Char)
    (hs : charsStartWith n h = true) : charsContain n h = true := by
  cases h with
  | nil => simpa [charsContain] using hs
  | cons b bs => simp [charsContain, hs]

lemma charsContain_self_append (n y : List Char) :
    charsContain n (n ++ y) = true :=
  charsContain_of_startsWith _ _ (charsStartWith_self_append n y)

lemma charsContain_middle (n x y : List Char) :
    charsContain n (x ++ (n ++ y)) = true := by
  induction x with
  | nil => simpa using charsContain_self_append n y
  | cons c cs ih =>
    simp only [List.cons_append, charsContain, List.append_eq]
    rw [ih]
    simp

lemma resolveDir_ne_empty (d f : String) (h : dirname f ≠ ("")) :
    resolveDir d f ≠ ("") := by
  simp only [resolveDir]
  by_cases ha : isAbsPath (dirname f) = true
  · simpa [ha] using h
  · simp only [ha, if_false, Bool.false_eq_true, joinPath]
    by_cases he : ((d == ("")) || endsWithSlash d) = true
    · rw [if_pos he]
      exact string_append_ne_empty_right _ _ h
    · rw [if_neg he]
      exact string_append_ne_empty_right _ _ h

lemma buildScopes_ssl (d : String) (entries : List (String × String))
    (out : ScopeOut) (h : buildScopes d entries = .ok out)
    (c : String) (hc : c ≠ ("")) :
    out.ssl c = (childDirs d c entries).toFinset := by
  have := go_ok_ssl d entries _ _ _ _ h c hc
  simpa using this

lemma childDirs_perm (d c : String) {l l' : List (String × String)}
    (h : l.Perm l') :
    (childDirs d c l).toFinset = (childDirs d c l').toFinset := by
  ext x
  simp only [List.mem_toFinset, childDirs, List.mem_filterMap]
  constructor
  · rintro ⟨e, he, hce⟩
    exact ⟨e, h.mem_iff.mp he, hce⟩
  · rintro ⟨e, he, hce⟩
    exact ⟨e, h.mem_iff.mpr he, hce⟩

/-! ## The claims -/

/-- C1: a name in the build-output (wheel) table resolves to the
build-output file (even when also present in the source table); a name
only in the source table resolves to the source file; a name in neither
yields the decline `none`, not an error. -/
theorem editable_C1 (f : Finder) (fullname : String) :
    (∀ w, List.lookup fullname f.known_wheel_files = some w →
      findSpec f fullname
        = some ⟨fullname, joinPath f.dir w, sslOf f fullname, joinPath f.dir w⟩)
    ∧ (List.lookup fullname f.known_wheel_files = none →
      ∀ s, List.lookup fullname f.known_source_files = some s →
        findSpec f fullname = some ⟨fullname, s, sslOf f fullname, s⟩)
    ∧ (List.lookup fullname f.known_wheel_files = none →
       List.lookup fullname f.known_source_files = none →
       findSpec f fullname = none) := by
  refine ⟨fun w hw => ?_, fun hw s hs => ?_, fun hw hs => ?_⟩
  · simp [findSpec, hw]
  · simp [findSpec, hw, hs]
  · simp [findSpec, hw, hs]

/-- Sample finder for the C1 witness: `m` is in both tables, `b` only in
the source table, `z` in neither. -/
def c1F : Finder :=
  ⟨[("m", "src/m.py"), ("b", "src/b.py")], [("m", "out/m.so")],
    none, false, false, [], [], "/d", fun _ => ∅, [], []⟩

/-- C1 witness: the three branches at concrete inputs. -/
theorem editable_C1_witness :
    findSpec c1F ("m")
      = some ⟨("m"), joinPath c1F.dir ("out/m.so"), sslOf c1F ("m"),
          joinPath c1F.dir ("out/m.so")⟩
    ∧ findSpec c1F ("b")
      = some ⟨("b"), ("src/b.py"), sslOf c1F ("b"), ("src/b.py")⟩
    ∧ findSpec c1F ("z") = none :=
  ⟨(editable_C1 c1F ("m")).1 ("out/m.so") (by decide),
   (editable_C1 c1F ("b")).2.1 (by decide) ("src/b.py") (by decide),
   (editable_C1 c1F ("z")).2.2 (by decide) (by decide)⟩

/-- C10: with the rebuild flag unset, resolution is total: it never
raises, and it answers (purely from the tables, with no filesystem
check in the model) exactly for names in either table. -/
theorem editable_C10 (f : Finder) (osEnv : List (String × String))
    (moduleDir : String) (run : Cmd → CmdResult) (fullname : String)
    (h : f.rebuild_flag = false) :
    findSpecFull f osEnv moduleDir run fullname = .ok (findSpec f fullname)
    ∧ ((findSpec f fullname).isSome ↔
        ((List.lookup fullname f.known_wheel_files).isSome
          ∨ (List.lookup fullname f.known_source_files).isSome)) := by
  constructor
  · cases hw : List.lookup fullname f.known_wheel_files with
    | none => simp [findSpecFull, hw]
    | some w => simp [findSpecFull, hw, h]
  · cases hw : List.lookup fullname f.known_wheel_files with
    | none =>
      cases hs : List.lookup fullname f.known_source_files with
      | none => simp [findSpec, hw, hs]
      | some s => simp [findSpec, hw, hs]
    | some w => simp [findSpec, hw]

/-- Sample finder for the C10 witness: a wheel entry whose file need not
exist anywhere. -/
def c10F : Finder :=
  ⟨[], [("ghost", "out/ghost.so")], none, false, false, [], [], "/d",
    fun _ => ∅, [], []⟩

/-- Runner for the C10 witness (never consulted: the flag is unset). -/
def c10Run : Cmd → CmdResult := fun _ => ⟨0, none⟩

/-- C10 witness: at a concrete finder with the rebuild flag unset. -/
theorem editable_C10_witness :
    findSpecFull c10F [] ("/d") c10Run ("ghost") = .ok (findSpec c10F ("ghost"))
    ∧ ((findSpec c10F ("ghost")).isSome ↔
        ((List.lookup ("ghost") c10F.known_wheel_files).isSome
          ∨ (List.lookup ("ghost") c10F.known_source_files).isSome)) :=
  editable_C10 c10F [] ("/d") c10Run ("ghost") rfl

/-- C3: the rebuild trigger runs no external command and returns success
when the build directory is unset or empty, or when it is already listed
in the path-separator-delimited recursion marker. -/
theorem editable_C3 (f : Finder) (osEnv : List (String × String))
    (moduleDir : String) (run : Cmd → CmdResult)
    (h : f.path = none ∨ f.path = some ("")
      ∨ ∃ p, f.path = some p ∧ p ∈ splitStr ':' (envGet osEnv MARKER (""))) :
    (rebuild f osEnv moduleDir run).invoked = []
    ∧ (rebuild f osEnv moduleDir run).result = .ok () := by
  rcases h with h | h | ⟨p, hp, hmem⟩
  · simp [rebuild, h]
  · simp [rebuild, h]
  · by_cases hpe : p = ("")
    · simp [rebuild, hp, hpe]
    · simp [rebuild, hp, hpe, hmem]

/-- Sample finder for the C3 witness: build directory `/bld`. -/
def c3F : Finder :=
  ⟨[], [], some ("/bld"), false, false, [], [], "/d", fun _ => ∅, [], []⟩

/-- Environment for the C3 witness: the marker already carries `/bld`. -/
def c3Env : List (String × String) := [(MARKER, "x:/bld")]

/-- Runner for the C3 witness (must not be consulted). -/
def c3Run : Cmd → CmdResult := fun _ => ⟨0, none⟩

/-- C3 witness: a rebuild whose environment already carries the build
directory in the marker performs zero invocations. -/
theorem editable_C3_witness :
    (rebuild c3F c3Env ("/d") c3Run).invoked = []
    ∧ (rebuild c3F c3Env ("/d") c3Run).result = .ok () :=
  editable_C3 c3F c3Env ("/d") c3Run
    (Or.inr (Or.inr ⟨("/bld"), rfl, by decide⟩))

/-- C8: the effective verbosity of a proceeding rebuild equals the flag
OR-ed with the presence of a non-empty override value, except that the
value `"0"` forces it off; the commands it runs stream exactly when that
verbosity holds; flag false with `"1"` is verbose, flag true with `"0"`
is not. -/
theorem editable_C8 (f : Finder) (osEnv : List (String × String))
    (moduleDir : String) (run : Cmd → CmdResult) (p : String)
    (hpath : f.path = some p) (hne : p ≠ (""))
    (hmark : p ∉ splitStr ':' (envGet osEnv MARKER (""))) :
    effVerbose f osEnv p
      = (if envGet osEnv VERBOSE ("") = ("0") then false
         else (f.verbose || !(envGet osEnv VERBOSE ("") == (""))))
    ∧ (rebuild f osEnv moduleDir run).invoked.head?.map Cmd.streamed
      = some (effVerbose f osEnv p)
    ∧ resolveVerbose false ("1") = true
    ∧ resolveVerbose true ("0") = false := by
  refine ⟨?_, ?_, by decide, by decide⟩
  · have hv : envGet (rebuildEnv osEnv p) VERBOSE ("")
        = envGet osEnv VERBOSE ("") := by
      have hne2 : (VERBOSE == MARKER) = false := by decide
      simp [rebuildEnv, envSet, envGet, List.lookup, hne2]
    rw [effVerbose, hv, resolveVerbose]
  · simp only [rebuild, hpath]
    rw [if_neg hne, if_neg hmark]
    split
    · rfl
    · split
      · rfl
      · rfl

/-- Sample finder for the C8 witness: explicit flag off, build directory
`/bld`. -/
def c8F : Finder :=
  ⟨[], [], some ("/bld"), false, false, [], [], "/d", fun _ => ∅, [], []⟩

/-- Environment for the C8 witness: the override variable holds `"1"`. -/
def c8Env : List (String × String) := [(VERBOSE, "1")]

/-- Runner for the C8 witness. -/
def c8Run : Cmd → CmdResult := fun _ => ⟨0, none⟩

/-- C8 witness: at a concrete finder, including that flag `false` with
environment `"1"` yields verbose commands. -/
theorem editable_C8_witness :
    (effVerbose c8F c8Env ("/bld")
      = (if envGet c8Env VERBOSE ("") = ("0") then false
         else (c8F.verbose || !(envGet c8Env VERBOSE ("") == (""))))
    ∧ (rebuild c8F c8Env ("/d") c8Run).invoked.head?.map Cmd.streamed
      = some (effVerbose c8F c8Env ("/bld"))
    ∧ resolveVerbose false ("1") = true
    ∧ resolveVerbose true ("0") = false)
    ∧ effVerbose c8F c8Env ("/bld") = true :=
  ⟨editable_C8 c8F c8Env ("/d") c8Run ("/bld") rfl (by decide) (by decide),
   by decide⟩

/-- C2: for a configured, unmarked build directory — if the build step
exits nonzero, the install step is never invoked and the raised failure
carries that step's exit code and output; the install step runs only
after a zero build exit, and a nonzero exit from either step yields the
corresponding failure, a double-zero run succeeding. -/
theorem editable_C2 (f : Finder) (osEnv : List (String × String))
    (moduleDir : String) (run : Cmd → CmdResult) (p : String)
    (hpath : f.path = some p) (hne : p ≠ (""))
    (hmark : p ∉ splitStr ':' (envGet osEnv MARKER (""))) :
    ((run (buildStepCmd f osEnv p)).returncode ≠ 0 →
      (rebuild f osEnv moduleDir run).invoked = [buildStepCmd f osEnv p]
      ∧ (rebuild f osEnv moduleDir run).result
          = .error ⟨(run (buildStepCmd f osEnv p)).returncode,
              (buildStepCmd f osEnv p).args,
              (run (buildStepCmd f osEnv p)).stdout⟩)
    ∧ ((run (buildStepCmd f osEnv p)).returncode = 0 →
      (rebuild f osEnv moduleDir run).invoked
        = [buildStepCmd f osEnv p, installStepCmd f osEnv p moduleDir]
      ∧ ((run (installStepCmd f osEnv p moduleDir)).returncode ≠ 0 →
          (rebuild f osEnv moduleDir run).result
            = .error ⟨(run (installStepCmd f osEnv p moduleDir)).returncode,
                (installStepCmd f osEnv p moduleDir).args,
                (run (installStepCmd f osEnv p moduleDir)).stdout⟩)
      ∧ ((run (installStepCmd f osEnv p moduleDir)).returncode = 0 →
          (rebuild f osEnv moduleDir run).result = .ok ())) := by
  constructor
  · intro h1
    have hb : ((run (buildStepCmd f osEnv p)).returncode != 0) = true := by
      simpa using h1
    simp only [rebuild, hpath]
    rw [if_neg hne, if_neg hmark, if_pos hb]
    exact ⟨rfl, rfl⟩
  · intro h0
    have hb : ¬(((run (buildStepCmd f osEnv p)).returncode != 0) = true) := by
      simp [h0]
    by_cases h2 : ((run (installStepCmd f osEnv p moduleDir)).returncode != 0) = true
    · have h2' : (run (installStepCmd f osEnv p moduleDir)).returncode ≠ 0 := by
        simpa using h2
      refine ⟨?_, fun _ => ?_, fun hz => absurd hz h2'⟩
      · simp only [rebuild, hpath]
        rw [if_neg hne, if_neg hmark, if_neg hb, if_pos h2]
      · simp only [rebuild, hpath]
        rw [if_neg hne, if_neg hmark, if_neg hb, if_pos h2]
    · have h2' : (run (installStepCmd f osEnv p moduleDir)).returncode = 0 := by
        simpa using h2
      refine ⟨?_, fun hz => absurd h2' hz, fun _ => ?_⟩
      · simp only [rebuild, hpath]
        rw [if_neg hne, if_neg hmark, if_neg hb, if_neg h2]
      · simp only [rebuild, hpath]
        rw [if_neg hne, if_neg hmark, if_neg hb, if_neg h2]

/-- Sample finder for the C2 witness. -/
def c2F : Finder :=
  ⟨[], [], some ("/bld"), false, false, [], [], "/d", fun _ => ∅, [], []⟩

/-- Runner for the C2 witness: every command fails with captured output
`boom`. -/
def c2Run : Cmd → CmdResult := fun _ => ⟨1, some ("boom")⟩

/-- C2 witness: a failing build step invokes only the build command and
raises with its exit code and output. -/
theorem editable_C2_witness :
    (rebuild c2F [] ("/d") c2Run).invoked = [buildStepCmd c2F [] ("/bld")]
    ∧ (rebuild c2F [] ("/d") c2Run).result
        = .error ⟨(c2Run (buildStepCmd c2F [] ("/bld"))).returncode,
            (buildStepCmd c2F [] ("/bld")).args,
            (c2Run (buildStepCmd c2F [] ("/bld"))).stdout⟩ :=
  (editable_C2 c2F [] ("/d") c2Run ("/bld") rfl (by decide) (by decide)).1
    (by decide)

/-- Sample finder for the C9 demonstration: explicit flag off, no
environment override, so the run is non-verbose. -/
def c9F : Finder :=
  ⟨[], [], some ("/bld"), true, false, [], [], "/d", fun _ => ∅, [], []⟩

/-- Runner for the C9 demonstration: the build step fails with captured
output `boom`. -/
def c9Run : Cmd → CmdResult := fun _ => ⟨1, some ("boom")⟩

/-- C9: demonstration against the claim. In non-verbose mode the command
stdout IS captured (not streamed) and the exit code IS nonzero with
captured output `boom`, yet nothing is emitted to the error stream,
because line 156 guards the emission with `and verbose` instead of
`and not verbose`; the captured output travels only inside the raised
failure. -/
theorem editable_C9_bug :
    (rebuild c9F [] ("/d") c9Run).invoked.map Cmd.streamed = [false]
    ∧ (c9Run (buildStepCmd c9F [] ("/bld"))).returncode ≠ 0
    ∧ (c9Run (buildStepCmd c9F [] ("/bld"))).stdout = some ("boom")
    ∧ (rebuild c9F [] ("/d") c9Run).stderrMsgs = []
    ∧ (rebuild c9F [] ("/d") c9Run).result
        = .error ⟨1, cmakeBuildArgs, some ("boom")⟩ :=
  ⟨rfl, by decide, rfl, rfl, rfl⟩

/-- C4: for a successful construction, the search scope of a container is
the union of the (deduplicated) sets of directories contributed by the
source-tree and build-output tables, and any reordering of either table
that still constructs successfully yields the same set. -/
theorem editable_C4 (d : String) (src whl : List (String × String))
    (out : ScopeOut) (c : String)
    (h : buildScopes d (src ++ whl) = .ok out) (hc : c ≠ ("")) :
    out.ssl c = (childDirs d c src).toFinset ∪ (childDirs d c whl).toFinset
    ∧ (∀ (src' whl' : List (String × String)) (out' : ScopeOut),
        src'.Perm src → whl'.Perm whl →
        buildScopes d (src' ++ whl') = .ok out' → out'.ssl c = out.ssl c) := by
  have h1 : out.ssl c = (childDirs d c (src ++ whl)).toFinset :=
    buildScopes_ssl d _ out h c hc
  constructor
  · rw [h1]
    simp only [childDirs, List.filterMap_append, List.toFinset_append]
  · intro src' whl' out' hs hw h'
    have h2 : out'.ssl c = (childDirs d c (src' ++ whl')).toFinset :=
      buildScopes_ssl d _ out' h' c hc
    rw [h1, h2]
    exact childDirs_perm d c (hs.append hw)

/-- Source table for the C4 witness. -/
def c4Src : List (String × String) :=
  [("pkg", "src/pkg/__init__.py"), ("pkg.mod", "src/pkg/mod.py")]

/-- Build-output table for the C4 witness. -/
def c4Whl : List (String × String) := [("pkg.native", "build/pkg/native.so")]

/-- The scope construction of the C4 witness. -/
def c4Out : ScopeOut :=
  (buildScopes ("/r") (c4Src ++ c4Whl)).toOption.getD ⟨fun _ => ∅, [], []⟩

/-- C4 witness: the container `pkg`, whose children are split across both
tables, gets the merged two-directory scope. -/
theorem editable_C4_witness :
    c4Out.ssl ("pkg")
      = (childDirs ("/r") ("pkg") c4Src).toFinset
        ∪ (childDirs ("/r") ("pkg") c4Whl).toFinset
    ∧ c4Out.ssl ("pkg") = {("/r/src/pkg"), ("/r/build/pkg")} :=
  ⟨(editable_C4 ("/r") c4Src c4Whl c4Out ("pkg") rfl (by decide)).1,
   by decide⟩

/-- C5: a non-root entry whose file has no parent directory makes the
construction fail fast at that entry, with an error identifying the
offending module and file (whose message contains both); a successful
construction never holds an empty directory in any scope set. -/
theorem editable_C5 :
    (∀ (d : String) (pre : List (String × String)) (m f : String)
        (post : List (String × String)),
      (∀ e ∈ pre, ¬ badEntry e) → entryKey (m, f) ≠ ("") →
      dirname f = ("") →
      buildScopes d (pre ++ (m, f) :: post) = .error ⟨m, f⟩)
    ∧ (∀ (d : String) (entries : List (String × String)) (out : ScopeOut),
        buildScopes d entries = .ok out → ∀ c, ("") ∉ out.ssl c)
    ∧ (∀ m f : String, pyInStr f (PathError.message ⟨m, f⟩) = true
        ∧ pyInStr m (PathError.message ⟨m, f⟩) = true) := by
  refine ⟨?_, ?_, ?_⟩
  · intro d pre m f post hpre hk hd
    exact go_error_first d pre hpre m f post _ _ _ ⟨hk, hd⟩
  · intro d entries out h c
    by_cases hc : c = ("")
    · subst hc
      rw [go_ok_ssl_root d entries _ _ _ _ h]
      exact Finset.not_mem_empty _
    · rw [buildScopes_ssl d entries out h c hc]
      intro hmem
      rcases List.mem_filterMap.mp (List.mem_toFinset.mp hmem) with ⟨e, he, hce⟩
      have hgood := go_ok_good d entries _ _ _ _ h e he
      by_cases hk : entryKey e = c
      · rw [contrib_eq_some hk] at hce
        have hkne : entryKey e ≠ ("") := by rw [hk]; exact hc
        have hdne : dirname e.2 ≠ ("") := fun hdd => hgood ⟨hkne, hdd⟩
        exact resolveDir_ne_empty d e.2 hdne (Option.some.inj hce)
      · rw [contrib_eq_none hk] at hce
        cases hce
  · intro m f
    constructor
    · have hm : (PathError.message ⟨m, f⟩).toList
          = ("Unexpected path to source file: ").toList
            ++ (f.toList ++ ((" [") ++ m ++ ("]")).toList) := by
        simp [PathError.message, string_toList_append, List.append_assoc]
      rw [pyInStr, hm]
      exact charsContain_middle _ _ _
    · have hm : (PathError.message ⟨m, f⟩).toList
          = (("Unexpected path to source file: ") ++ f ++ (" [")).toList
            ++ (m.toList ++ ("]").toList) := by
        simp [PathError.message, string_toList_append, List.append_assoc]
      rw [pyInStr, hm]
      exact charsContain_middle _ _ _

/-- C5 witness: the non-root module `a.b` mapped to the parentless file
`b.py` fails construction with the error naming that module and file. -/
theorem editable_C5_witness :
    buildScopes ("/r") [(("a.b"), ("b.py"))] = .error ⟨("a.b"), ("b.py")⟩ :=
  editable_C5.1 ("/r") [] ("a.b") ("b.py") [] (by decide) (by decide)
    (by decide)

/-- C6: on a successful construction, the recorded packages are exactly
the module names carried by an entry whose file contains the
package-initializer name; the container key of any entry is the module
itself exactly in that case and otherwise the module minus its last
dotted segment; and the scope keys are exactly the non-empty container
keys of the entries. -/
theorem editable_C6 (d : String) (entries : List (String × String))
    (out : ScopeOut) (h : buildScopes d entries = .ok out) :
    (∀ m, m ∈ out.pkgs
      ↔ ∃ f, (m, f) ∈ entries ∧ pyInStr initPyStr f = true)
    ∧ (∀ m f, entryKey (m, f)
        = if pyInStr initPyStr f then m else stripLastSeg m)
    ∧ (∀ k, k ∈ out.ssl_keys
        ↔ (k ≠ ("") ∧ ∃ e ∈ entries, entryKey e = k)) := by
  refine ⟨?_, fun m f => rfl, ?_⟩
  · intro m
    rw [go_ok_pkgs d entries _ _ _ _ h]
    simp only [List.nil_append]
    constructor
    · intro hm
      rw [initPkgs] at hm
      rcases List.mem_filterMap.mp hm with ⟨e, he, hge⟩
      obtain ⟨e1, e2⟩ := e
      by_cases hi : pyInStr initPyStr e2 = true
      · rw [if_pos hi] at hge
        have : e1 = m := Option.some.inj hge
        subst this
        exact ⟨e2, he, hi⟩
      · rw [if_neg hi] at hge
        cases hge
    · rintro ⟨f, hf, hi⟩
      rw [initPkgs]
      exact List.mem_filterMap.mpr ⟨(m, f), hf, by simp [hi]⟩
  · intro k
    rw [go_ok_keys d entries _ _ _ _ h k]
    simp only [List.not_mem_nil, false_or]

/-- Entries for the C6 witness. -/
def c6Entries : List (String × String) :=
  [("pkg", "src/pkg/__init__.py"), ("pkg.mod", "src/pkg/mod.py")]

/-- The scope construction of the C6 witness. -/
def c6Out : ScopeOut :=
  (buildScopes ("/r") c6Entries).toOption.getD ⟨fun _ => ∅, [], []⟩

/-- C6 witness: `pkg`, whose file is a package initializer, is recorded as
a container, and it is the only one. -/
theorem editable_C6_witness :
    ("pkg") ∈ c6Out.pkgs ∧ c6Out.pkgs = [("pkg")] :=
  ⟨((editable_C6 ("/r") c6Entries c6Out rfl).1 ("pkg")).mpr
      ⟨("src/pkg/__init__.py"), by decide, by decide⟩,
   by decide⟩

/-- The scope construction of the C7 counterexample and witness: a single
source-tree entry with a relative directory, no build-output entries. -/
def c7Out : ScopeOut :=
  (buildScopes ("/root") ([(("a.b"), ("s/b.py"))] ++ [])).toOption.getD
    ⟨fun _ => ∅, [], []⟩

/-- C7 counterexample: a relative directory coming from a source-tree
entry is NOT left as-is; it is resolved against the root directory, so
the claim that only build-output directories are resolved is false. -/
theorem editable_C7_counterexample :
    c7Out.ssl ("a") = {("/root/s")} ∧ ("s") ∉ c7Out.ssl ("a") := by
  decide

/-- C7 (amended): during scope construction, a relative container
directory is resolved against the root directory for entries of BOTH
tables (source-tree entries included), and an absolute directory is left
as-is. -/
theorem editable_C7 (d : String) (src whl : List (String × String))
    (out : ScopeOut) (h : buildScopes d (src ++ whl) = .ok out)
    (m f : String) (hmem : (m, f) ∈ src ++ whl)
    (hk : entryKey (m, f) ≠ ("")) :
    (isAbsPath (dirname f) = false →
      joinPath d (dirname f) ∈ out.ssl (entryKey (m, f)))
    ∧ (isAbsPath (dirname f) = true →
      dirname f ∈ out.ssl (entryKey (m, f))) := by
  have hgood := go_ok_good d _ _ _ _ _ h (m, f) hmem
  have hssl := buildScopes_ssl d _ out h (entryKey (m, f)) hk
  have hmem2 : resolveDir d f ∈ out.ssl (entryKey (m, f)) := by
    rw [hssl]
    exact List.mem_toFinset.mpr
      (List.mem_filterMap.mpr ⟨(m, f), hmem, contrib_eq_some rfl⟩)
  constructor
  · intro habs
    rw [show joinPath d (dirname f) = resolveDir d f from by
      simp [resolveDir, habs]]
    exact hmem2
  · intro habs
    rw [show dirname f = resolveDir d f from by simp [resolveDir, habs]]
    exact hmem2

/-- C7 witness (for the amended claim): the relative source-tree
directory `s` lands in the scope joined against the root `/root`. -/
theorem editable_C7_witness :
    joinPath ("/root") (dirname ("s/b.py"))
      ∈ c7Out.ssl (entryKey (("a.b"), ("s/b.py"))) :=
  (editable_C7 ("/root") [(("a.b"), ("s/b.py"))] [] c7Out rfl ("a.b")
    ("s/b.py") (by decide) (by decide)).1 (by decide)
